import Mathlib

/-!
Shallow embedding of `src/analisis_ventas.py`: a sales-dashboard script built
on a dataframe library.  Cell values are modelled by `Val` (strings, parsed
dates, integer numbers), a dataframe by its named columns, the
group-by/sum/sort aggregations by list functions, and the mutable objects
handled by `generar_dashboard` (the caller's dataframe and its working copy)
by an explicit heap of dataframes, so that the copy-on-write behaviour is
visible.  Numeric amounts are modelled as integers (exact arithmetic; the
script's demo data is integer-valued), and the daily mean is computed in `ℚ`
so that it is exact.
-/

namespace AnalisisVentas

/-- A cell value of the dataframe: a raw string, a parsed date
(encoded as an integer), or a number. -/
inductive Val where
  | str (s : String)
  | date (d : Int)
  | num (n : Int)
deriving DecidableEq, Repr

/-- Whether a value is of the date/time type (`np.datetime64`). -/
def Val.isDate : Val → Bool
  | .date _ => true
  | _ => false

/-- Numeric view of a value, used when summing an amount column. -/
def Val.toInt : Val → Int
  | .num n => n
  | _ => 0

/-- Constructor rank, used to compare values of different shapes. -/
def Val.rank : Val → Nat
  | .date _ => 0
  | .num _ => 1
  | .str _ => 2

/-- Boolean total order on values: same-shape values compare by payload,
different shapes by constructor rank (dates < numbers < strings). -/
def Val.leb : Val → Val → Bool
  | .date a, .date b => decide (a ≤ b)
  | .num a, .num b => decide (a ≤ b)
  | .str a, .str b => decide (a ≤ b)
  | a, b => decide (a.rank ≤ b.rank)

/-- The order on values as a proposition, used to sort a date index. -/
def Val.le (a b : Val) : Prop := Val.leb a b = true

instance : DecidableRel Val.le := fun a b => inferInstanceAs (Decidable (Val.leb a b = true))

instance : IsTotal Val Val.le := by
  constructor
  intro a b
  cases a <;> cases b <;>
    simp only [Val.le, Val.leb, Val.rank, decide_eq_true_eq] <;>
    first
      | omega
      | exact le_total _ _

instance : IsTrans Val Val.le := by
  constructor
  intro a b c hab hbc
  cases a <;> cases b <;> cases c <;>
    simp only [Val.le, Val.leb, Val.rank, decide_eq_true_eq] at hab hbc ⊢ <;>
    first
      | omega
      | exact le_trans hab hbc

instance : IsAntisymm Val Val.le := by
  constructor
  intro a b hab hba
  cases a <;> cases b <;>
    simp only [Val.le, Val.leb, Val.rank, decide_eq_true_eq] at hab hba <;>
    first
      | omega
      | exact congrArg _ (le_antisymm hab hba)

/-- A dataframe: a list of named columns of values. -/
structure DataFrame where
  cols : List (String × List Val)
deriving DecidableEq, Repr

/-- `df.columns`. -/
def DataFrame.columns (df : DataFrame) : List String := df.cols.map Prod.fst

/-- `df[c]`: the values of column `c` (empty when absent). -/
def DataFrame.getCol (df : DataFrame) (c : String) : List Val :=
  (df.cols.lookup c).getD []

/-- `df[c] = vs`: replace the values of the existing column `c`. -/
def DataFrame.setCol (df : DataFrame) (c : String) (vs : List Val) : DataFrame :=
  ⟨df.cols.map fun p => if p.1 = c then (c, vs) else p⟩

/-- The (key, amount) rows that `df.groupby(k)[v]` aggregates over. -/
def toPairs (df : DataFrame) (k v : String) : List (Val × Int) :=
  ((df.getCol k).zip (df.getCol v)).map fun p => (p.1, p.2.toInt)

/-- Sum of the amounts of the rows whose key equals `k`. -/
def fiberSum (ps : List (Val × Int)) (k : Val) : Int :=
  ((ps.filter fun p => decide (p.1 = k)).map Prod.snd).sum

/-- `.groupby(k)[v].sum()`: one (key, summed amount) entry per distinct key. -/
def groupSum (ps : List (Val × Int)) : List (Val × Int) :=
  ((ps.map Prod.fst).dedup).map fun k => (k, fiberSum ps k)

/-- The order used by `.sort_values(ascending=False)`: larger sums first. -/
def descBySnd (a b : Val × Int) : Prop := b.2 ≤ a.2

instance : DecidableRel descBySnd := fun a b => inferInstanceAs (Decidable (b.2 ≤ a.2))

instance : IsTotal (Val × Int) descBySnd := ⟨fun a b => le_total b.2 a.2⟩

instance : IsTrans (Val × Int) descBySnd := ⟨fun _ _ _ hab hbc => le_trans hbc hab⟩

/-- `df.groupby(c)[v].sum().sort_values(ascending=False)`. -/
def aggDesc (df : DataFrame) (c v : String) : List (Val × Int) :=
  List.insertionSort descBySnd (groupSum (toPairs df c v))

/-- Distinct-value count of a column (`.nunique()`). -/
def nunique (vs : List Val) : Nat := vs.dedup.length

/-- The data drawn by `plot_ventas_tiempo`: per-date sums, sorted ascending
by date (`groupby(fecha)[ventas].sum().sort_index()`). -/
def plot_ventas_tiempo (df : DataFrame) (fecha_col : String := "fecha")
    (ventas_col : String := "ventas") : List (Val × Int) :=
  (List.insertionSort Val.le ((toPairs df fecha_col ventas_col).map Prod.fst).dedup).map
    fun k => (k, fiberSum (toPairs df fecha_col ventas_col) k)

/-- The bars drawn by `plot_ventas_por_categoria`: the `top_n` largest
per-category sums (`agg.head(top_n)`). -/
def plot_ventas_por_categoria (df : DataFrame) (cat_col : String := "categoria")
    (ventas_col : String := "ventas") (top_n : Nat := 8) : List (Val × Int) :=
  (aggDesc df cat_col ventas_col).take top_n

/-- The bar-panel title: `f"Top {len(agg_to_plot)} categorías por ventas"`. -/
def titulo_barras (df : DataFrame) (cat_col : String := "categoria")
    (ventas_col : String := "ventas") (top_n : Nat := 8) : String :=
  "Top " ++ toString (plot_ventas_por_categoria df cat_col ventas_col top_n).length
    ++ " categorías por ventas"

/-- `agg.iloc[top_n:].sum()`: the summed remainder below the kept top `top_n`. -/
def otrosSum (df : DataFrame) (cat_col ventas_col : String) (top_n : Nat) : Int :=
  (((aggDesc df cat_col ventas_col).drop top_n).map Prod.snd).sum

/-- Label-based series assignment `s[k] = x`: overwrite the entry with key `k`
when one exists, otherwise append a new entry (pandas enlargement). -/
def seriesSet (l : List (Val × Int)) (k : Val) (x : Int) : List (Val × Int) :=
  if l.any fun p => decide (p.1 = k) then
    l.map fun p => if p.1 = k then (k, x) else p
  else l ++ [(k, x)]

/-- The slices drawn by `plot_participacion_pie`: the top `top_n` per-category
sums, with `top["Otros"] = others` performed when the remainder is positive. -/
def plot_participacion_pie (df : DataFrame) (cat_col : String := "categoria")
    (ventas_col : String := "ventas") (top_n : Nat := 6) : List (Val × Int) :=
  let top := (aggDesc df cat_col ventas_col).take top_n
  let others := otrosSum df cat_col ventas_col top_n
  if 0 < others then seriesSet top (Val.str "Otros") others else top

/-- Mean of a list of integers, computed exactly in `ℚ` (`.mean()`). -/
def mediaZ (l : List Int) : ℚ := (l.sum : ℚ) / (l.length : ℚ)

/-- The outputs of one `generar_dashboard` call: the data of the three chart
panels and the KPI statistics of the fourth cell. -/
structure Dashboard where
  serie_tiempo : List (Val × Int)
  barras : List (Val × Int)
  barras_titulo : String
  torta : List (Val × Int)
  total_ventas : Int
  media_diaria : ℚ
  dias : Nat
  categorias : Nat
deriving DecidableEq, Repr

/-- The figure contents produced from the working copy `df` by the body of
`generar_dashboard` (panel calls use the renderers' default `top_n`). -/
def buildDashboard (df : DataFrame) (fecha_col cat_col ventas_col : String) : Dashboard where
  serie_tiempo := plot_ventas_tiempo df fecha_col ventas_col
  barras := plot_ventas_por_categoria df cat_col ventas_col 8
  barras_titulo := titulo_barras df cat_col ventas_col 8
  torta := plot_participacion_pie df cat_col ventas_col 6
  total_ventas := ((df.getCol ventas_col).map Val.toInt).sum
  media_diaria := mediaZ ((groupSum (toPairs df fecha_col ventas_col)).map Prod.snd)
  dias := nunique (df.getCol fecha_col)
  categorias := nunique (df.getCol cat_col)

/-- Split a character list on the dash separator. -/
def splitDash : List Char → List (List Char)
  | [] => [[]]
  | c :: cs =>
    if c = '-' then [] :: splitDash cs
    else
      match splitDash cs with
      | [] => [[c]]
      | g :: gs => (c :: g) :: gs

/-- Read a non-empty all-digit character list as a number. -/
def digitsToNat (cs : List Char) : Option Nat :=
  if cs.isEmpty then none
  else if cs.all Char.isDigit then
    some (cs.foldl (fun n c => n * 10 + (c.toNat - 48)) 0)
  else none

/-- Date parser for `"YYYY-MM-DD"` strings, modelling the generic parser that
`pd.to_datetime` applies to string values. -/
def parseYMD (s : String) : Option Int :=
  match (splitDash s.data).map digitsToNat with
  | [some y, some m, some d] => some ((y : Int) * 10000 + (m : Int) * 100 + (d : Int))
  | _ => none

/-- `pd.to_datetime` on one value: dates pass through, strings are parsed,
integers are taken as epoch offsets. -/
def parseDate : Val → Option Val
  | .date d => some (.date d)
  | .str s => (parseYMD s).map Val.date
  | .num n => some (.date n)

/-- `pd.to_datetime` on a whole column: fails when any value fails. -/
def parseCol (vs : List Val) : Option (List Val) := vs.mapM parseDate

/-- `np.issubdtype(dtype, np.datetime64)` for a column of values. -/
def isDateDtype (vs : List Val) : Bool := !vs.isEmpty && vs.all Val.isDate

/-- The heap of live dataframe objects: `generar_dashboard` receives a
reference into it, so that copies and in-place column writes are explicit. -/
abbrev Heap := List DataFrame

/-- Dereference a dataframe object. -/
def Heap.read (h : Heap) (r : Nat) : DataFrame := h.getD r ⟨[]⟩

/-- The message of the missing-column error raised by `generar_dashboard`. -/
def errMsg (fecha_col cat_col ventas_col : String) : String :=
  "El DataFrame debe contener las columnas: " ++ fecha_col ++ ", " ++ cat_col
    ++ ", " ++ ventas_col

/-- `generar_dashboard`: validate the three columns, copy the input
(`df.copy()` allocates a fresh heap object), coerce the date column of the
copy in place when it is not date-typed, and build the figure from the copy.
Errors abort the call before any figure is produced. -/
def generar_dashboard (h : Heap) (df_ref : Nat) (fecha_col : String := "fecha")
    (cat_col : String := "categoria") (ventas_col : String := "ventas") :
    Except String (Heap × Dashboard) :=
  let df := h.read df_ref
  if fecha_col ∉ df.columns ∨ cat_col ∉ df.columns ∨ ventas_col ∉ df.columns then
    .error (errMsg fecha_col cat_col ventas_col)
  else
    let h1 := h ++ [df]
    let cref := h.length
    let dfc := h1.read cref
    if isDateDtype (dfc.getCol fecha_col) then
      .ok (h1, buildDashboard dfc fecha_col cat_col ventas_col)
    else
      match parseCol (dfc.getCol fecha_col) with
      | none => .error "No se pudo convertir la columna de fechas"
      | some vs =>
        let dfc2 := dfc.setCol fecha_col vs
        .ok (h1.set cref dfc2, buildDashboard dfc2 fecha_col cat_col ventas_col)

/-- The heap a dashboard call left behind, when it succeeded. -/
def resHeap : Except String (Heap × Dashboard) → Option Heap
  | .ok (h, _) => some h
  | .error _ => none

/-- The dashboard a call produced, when it succeeded. -/
def resDash : Except String (Heap × Dashboard) → Option Dashboard
  | .ok (_, d) => some d
  | .error _ => none

/-- A value of a global style parameter (`plt.rcParams`). -/
inductive RcVal where
  | num (q : ℚ)
  | pair (a b : ℚ)
  | str (s : String)
  | cycle (cs : List String)
  | bool (b : Bool)
deriving DecidableEq, Repr

/-- The process-wide rendering configuration (`plt.rcParams`). -/
structure RcParams where
  entries : List (String × RcVal)
deriving DecidableEq, Repr

/-- Dictionary assignment: overwrite the entry of key `k`, else add it. -/
def upsert : List (String × RcVal) → String → RcVal → List (String × RcVal)
  | [], k, x => [(k, x)]
  | p :: ps, k, x => if p.1 = k then (k, x) :: ps else p :: upsert ps k x

/-- `plt.rcParams[k] = x`. -/
def RcParams.set (rc : RcParams) (k : String) (x : RcVal) : RcParams :=
  ⟨upsert rc.entries k x⟩

/-- Read one style parameter. -/
def RcParams.get (rc : RcParams) (k : String) : Option RcVal :=
  rc.entries.lookup k

/-- `plt.rcParams.update(opts)`. -/
def RcParams.update (rc : RcParams) (opts : List (String × RcVal)) : RcParams :=
  opts.foldl (fun r p => r.set p.1 p.2) rc

/-- The six built-in corporate colors (`CORPORATE_COLORS`). -/
def CORPORATE_COLORS : List String :=
  ["#0B5FFF", "#00B37E", "#FFB020", "#E11D48", "#7C3AED", "#06B6D4"]

/-- The built-in default style options (`DEFAULT_STYLE`). -/
def DEFAULT_STYLE : List (String × RcVal) :=
  [("figure.figsize", .pair 12 7),
   ("axes.titlesize", .num 16),
   ("axes.labelsize", .num 12),
   ("xtick.labelsize", .num 10),
   ("ytick.labelsize", .num 10),
   ("legend.fontsize", .num 10),
   ("lines.linewidth", .num 2),
   ("grid.alpha", .num (1/4))]

/-- `set_default_style`: fall back to the built-in palette and style options
when the arguments are omitted, then apply them to the global configuration
together with the fixed facecolor/grid/edge assignments.  The function is
total (the source performs no validation and raises on no input). -/
def set_default_style (colors : Option (List String)) (style_opts : Option (List (String × RcVal)))
    (rc : RcParams) : RcParams :=
  let colors := colors.getD CORPORATE_COLORS
  let style_opts := style_opts.getD DEFAULT_STYLE
  (((((((rc.update style_opts).set "axes.prop_cycle" (.cycle colors)).set
      "figure.facecolor" (.str "white")).set
      "axes.facecolor" (.str "#FBFBFD")).set
      "grid.color" (.str "#DDE6F6")).set
      "axes.edgecolor" (.str "#2B2B2B")).set
      "axes.grid" (.bool true))

/-- The spec's example table: rows (2024-01-01, "A", 100), (2024-01-01, "B", 50),
(2024-01-02, "A", 30). -/
def dfA : DataFrame :=
  ⟨[("fecha", [.str "2024-01-01", .str "2024-01-01", .str "2024-01-02"]),
    ("categoria", [.str "A", .str "B", .str "A"]),
    ("ventas", [.num 100, .num 50, .num 30])]⟩

/-- A table one of whose genuine categories is literally named "Otros". -/
def dfOtros : DataFrame :=
  ⟨[("categoria", [.str "Otros", .str "A", .str "B"]),
    ("ventas", [.num 100, .num 50, .num 30])]⟩

/-- A two-row table, and `dfPermB` the same table with its rows swapped. -/
def dfPermA : DataFrame :=
  ⟨[("fecha", [.date 5, .date 3]), ("ventas", [.num 10, .num 20])]⟩

/-- `dfPermA` with its two rows in the opposite order. -/
def dfPermB : DataFrame :=
  ⟨[("fecha", [.date 3, .date 5]), ("ventas", [.num 20, .num 10])]⟩

/-- Per-key sums are invariant under permutation of the rows. -/
theorem fiberSum_perm {ps ps' : List (Val × Int)} (h : ps.Perm ps') (k : Val) :
    fiberSum ps k = fiberSum ps' k :=
  ((h.filter _).map Prod.snd).sum_eq

/-- Summing the per-key sums over a duplicate-free list of keys covering all
rows recovers the sum of all amounts. -/
theorem sum_filter_key : ∀ (ks : List Val) (ps : List (Val × Int)), ks.Nodup →
    (∀ p ∈ ps, p.1 ∈ ks) →
    (ks.map fun k => fiberSum ps k).sum = (ps.map Prod.snd).sum := by
  intro ks
  induction ks with
  | nil =>
    intro ps _ hmem
    have hps : ps = [] := by
      cases ps with
      | nil => rfl
      | cons p ps => exact absurd (hmem p (by simp)) (by simp)
    subst hps
    simp
  | cons k ks ih =>
    intro ps hnd hmem
    have hk : k ∉ ks := (List.nodup_cons.1 hnd).1
    have hnd' : ks.Nodup := (List.nodup_cons.1 hnd).2
    have hsplit :
        ((ps.filter fun p => decide (p.1 = k)).map Prod.snd).sum
          + ((ps.filter fun p => !decide (p.1 = k)).map Prod.snd).sum
          = (ps.map Prod.snd).sum := by
      have hperm := List.filter_append_perm (fun p : Val × Int => decide (p.1 = k)) ps
      calc ((ps.filter fun p => decide (p.1 = k)).map Prod.snd).sum
            + ((ps.filter fun p => !decide (p.1 = k)).map Prod.snd).sum
          = (((ps.filter fun p => decide (p.1 = k))
              ++ (ps.filter fun p => !decide (p.1 = k))).map Prod.snd).sum := by
            rw [List.map_append, List.sum_append]
        _ = (ps.map Prod.snd).sum := (hperm.map Prod.snd).sum_eq
    have hfib : ∀ k' ∈ ks,
        fiberSum ps k' = fiberSum (ps.filter fun p => !decide (p.1 = k)) k' := by
      intro k' hk'
      have hkk : k' ≠ k := fun he => hk (he ▸ hk')
      have hfe : (ps.filter fun a => decide (a.1 = k') && !decide (a.1 = k))
          = ps.filter fun a => decide (a.1 = k') := by
        apply List.filter_congr
        intro p _
        by_cases hp : p.1 = k'
        · simp [hp, hkk]
        · simp [hp]
      unfold fiberSum
      rw [List.filter_filter, hfe]
    have hmem' : ∀ p ∈ (ps.filter fun p => !decide (p.1 = k)), p.1 ∈ ks := by
      intro p hp
      have h1 := List.mem_of_mem_filter hp
      have h2 := List.of_mem_filter hp
      have h3 : p.1 ≠ k := by simpa using h2
      rcases List.mem_cons.1 (hmem p h1) with h | h
      · exact absurd h h3
      · exact h
    calc ((k :: ks).map fun k' => fiberSum ps k').sum
        = fiberSum ps k + (ks.map fun k' => fiberSum ps k').sum := by
          rw [List.map_cons, List.sum_cons]
      _ = fiberSum ps k
            + (ks.map fun k' => fiberSum (ps.filter fun p => !decide (p.1 = k)) k').sum := by
          rw [List.map_congr_left hfib]
      _ = fiberSum ps k + ((ps.filter fun p => !decide (p.1 = k)).map Prod.snd).sum := by
          rw [ih _ hnd' hmem']
      _ = (ps.map Prod.snd).sum := hsplit

/-- The per-key sums of `groupSum` add up to the sum of all amounts. -/
theorem sum_groupSum (ps : List (Val × Int)) :
    ((groupSum ps).map Prod.snd).sum = (ps.map Prod.snd).sum := by
  unfold groupSum
  rw [List.map_map]
  have h := sum_filter_key ((ps.map Prod.fst).dedup) ps (List.nodup_dedup _)
    (fun p hp => List.mem_dedup.2 (List.mem_map_of_mem Prod.fst hp))
  simpa [Function.comp] using h

/-- Sorting does not change the total of the per-category sums. -/
theorem sum_aggDesc (df : DataFrame) (c v : String) :
    ((aggDesc df c v).map Prod.snd).sum = ((toPairs df c v).map Prod.snd).sum :=
  (((List.perm_insertionSort descBySnd _).map Prod.snd).sum_eq).trans (sum_groupSum _)

/-- Splitting a list at `n` splits its amount total. -/
theorem take_drop_sum (l : List (Val × Int)) (n : Nat) :
    ((l.take n).map Prod.snd).sum + ((l.drop n).map Prod.snd).sum = (l.map Prod.snd).sum := by
  rw [← List.sum_append, ← List.map_append, List.take_append_drop]

/-- With non-negative amounts, every per-category sum is non-negative. -/
theorem aggDesc_nonneg (df : DataFrame) (c v : String)
    (hnn : ∀ p ∈ toPairs df c v, 0 ≤ p.2) :
    ∀ q ∈ aggDesc df c v, 0 ≤ q.2 := by
  intro q hq
  have hq' : q ∈ groupSum (toPairs df c v) :=
    (List.perm_insertionSort descBySnd _).mem_iff.1 hq
  obtain ⟨k, _, rfl⟩ := List.mem_map.1 hq'
  apply List.sum_nonneg
  intro x hx
  obtain ⟨p, hp, rfl⟩ := List.mem_map.1 hx
  exact hnn p (List.mem_of_mem_filter hp)

/-- With non-negative amounts, the truncation remainder sum is non-negative. -/
theorem otrosSum_nonneg (df : DataFrame) (c v : String) (n : Nat)
    (hnn : ∀ p ∈ toPairs df c v, 0 ≤ p.2) :
    0 ≤ otrosSum df c v n := by
  apply List.sum_nonneg
  intro x hx
  obtain ⟨p, hp, rfl⟩ := List.mem_map.1 hx
  exact aggDesc_nonneg df c v hnn p (List.drop_subset _ _ hp)

/-- The sorted aggregation has one entry per distinct key of the rows. -/
theorem length_aggDesc (df : DataFrame) (c v : String) :
    (aggDesc df c v).length = ((toPairs df c v).map Prod.fst).dedup.length := by
  unfold aggDesc
  rw [(List.perm_insertionSort descBySnd _).length_eq]
  unfold groupSum
  rw [List.length_map]

/-- With equal-length columns, the keys of the rows are the key column. -/
theorem map_fst_toPairs (df : DataFrame) (c v : String)
    (h : (df.getCol c).length = (df.getCol v).length) :
    (toPairs df c v).map Prod.fst = df.getCol c := by
  unfold toPairs
  rw [List.map_map]
  exact List.map_fst_zip _ _ (le_of_eq h)

/-- With equal-length columns, the amounts of the rows are the numeric view
of the amount column. -/
theorem map_snd_toPairs (df : DataFrame) (c v : String)
    (h : (df.getCol c).length = (df.getCol v).length) :
    (toPairs df c v).map Prod.snd = (df.getCol v).map Val.toInt := by
  unfold toPairs
  rw [List.map_map]
  have : ((df.getCol c).zip (df.getCol v)).map (Val.toInt ∘ Prod.snd)
      = (((df.getCol c).zip (df.getCol v)).map Prod.snd).map Val.toInt := by
    rw [List.map_map]
  rw [show (Prod.snd ∘ fun p : Val × Val => (p.1, p.2.toInt)) = Val.toInt ∘ Prod.snd from rfl,
    this, List.map_snd_zip _ _ (le_of_eq h.symm)]

/-- Looking up `c` after replacing column `c` returns the new values. -/
theorem lookup_map_set (l : List (String × List Val)) (c : String) (vs : List Val)
    (hcm : c ∈ l.map Prod.fst) :
    (l.map fun p => if p.1 = c then (c, vs) else p).lookup c = some vs := by
  induction l with
  | nil => simp at hcm
  | cons p ps ih =>
    have hcm' : c = p.1 ∨ c ∈ ps.map Prod.fst := by
      rw [List.map_cons] at hcm
      exact List.mem_cons.1 hcm
    simp only [List.map_cons]
    split
    · simp [List.lookup]
    · next hne =>
        have h2 : (c == p.1) = false := beq_eq_false_iff_ne.2 fun he => hne he.symm
        rcases hcm' with h | h
        · exact absurd h.symm hne
        · simp only [List.lookup, h2]
          exact ih h

/-- A successfully parsed value is date-typed. -/
theorem parseDate_isDate (x b : Val) (h : parseDate x = some b) : b.isDate = true := by
  cases x with
  | date d => simp only [parseDate, Option.some.injEq] at h; subst h; rfl
  | num n => simp only [parseDate, Option.some.injEq] at h; subst h; rfl
  | str s =>
    simp only [parseDate] at h
    cases hp : parseYMD s with
    | none => rw [hp] at h; simp at h
    | some i =>
      rw [hp] at h
      simp only [Option.map_some', Option.some.injEq] at h
      subst h; rfl

/-- A successfully parsed column is date-typed throughout. -/
theorem parseCol_all_dates : ∀ (vs ds : List Val), parseCol vs = some ds →
    ds.all Val.isDate = true := by
  intro vs
  induction vs with
  | nil =>
    intro ds h
    simp only [parseCol, List.mapM_nil, pure, Option.some.injEq] at h
    subst h; rfl
  | cons x xs ih =>
    intro ds h
    simp only [parseCol, List.mapM_cons] at h
    cases hx : parseDate x with
    | none => rw [hx] at h; simp at h
    | some b =>
      rw [hx] at h
      cases hxs : xs.mapM parseDate with
      | none => rw [hxs] at h; simp at h
      | some bs =>
        rw [hxs] at h
        simp only [Option.bind_some, Option.map_some', Option.bind_eq_bind,
          Option.some_bind, Option.pure_def, Option.some.injEq] at h
        subst h
        have h1 := parseDate_isDate x b hx
        have h2 := ih bs hxs
        simp [List.all_cons, h1, h2]

/-- Parsing a column preserves its length. -/
theorem parseCol_length : ∀ (vs ds : List Val), parseCol vs = some ds →
    ds.length = vs.length := by
  intro vs
  induction vs with
  | nil =>
    intro ds h
    simp only [parseCol, List.mapM_nil, pure, Option.some.injEq] at h
    subst h; rfl
  | cons x xs ih =>
    intro ds h
    simp only [parseCol, List.mapM_cons] at h
    cases hx : parseDate x with
    | none => rw [hx] at h; simp at h
    | some b =>
      rw [hx] at h
      cases hxs : xs.mapM parseDate with
      | none => rw [hxs] at h; simp at h
      | some bs =>
        rw [hxs] at h
        simp only [Option.bind_some, Option.map_some', Option.bind_eq_bind,
          Option.some_bind, Option.pure_def, Option.some.injEq] at h
        subst h
        simp [ih bs hxs]

/-- Reading a key after a dictionary assignment. -/
theorem lookup_upsert (l : List (String × RcVal)) (k : String) (x : RcVal) (k' : String) :
    (upsert l k x).lookup k' = if k' = k then some x else l.lookup k' := by
  induction l with
  | nil =>
    by_cases h : k' = k
    · simp [upsert, List.lookup, h]
    · simp [upsert, List.lookup, h, beq_eq_false_iff_ne.2 h]
  | cons p ps ih =>
    by_cases hpk : p.1 = k
    · by_cases h : k' = k
      · simp [upsert, hpk, List.lookup, h]
      · have h1 : (k' == k) = false := beq_eq_false_iff_ne.2 h
        have h2 : (k' == p.1) = false := beq_eq_false_iff_ne.2 (hpk ▸ h)
        simp [upsert, hpk, List.lookup, h, h1, h2]
    · by_cases hkp : k' = p.1
      · have h : k' ≠ k := fun he => hpk (he ▸ hkp).symm
        simp [upsert, hpk, List.lookup, hkp, h]
      · have h2 : (k' == p.1) = false := beq_eq_false_iff_ne.2 hkp
        simp only [upsert, if_neg hpk, List.lookup, h2]
        exact ih

/-- Reading a parameter after setting one. -/
theorem RcParams.get_set (rc : RcParams) (k : String) (x : RcVal) (k' : String) :
    (rc.set k x).get k' = if k' = k then some x else rc.get k' :=
  lookup_upsert rc.entries k x k'

/-- Reading below the end of a heap extension sees the old object. -/
theorem Heap.read_append (h : Heap) (d : DataFrame) (r : Nat) (hr : r < h.length) :
    Heap.read (h ++ [d]) r = h.read r := by
  unfold Heap.read
  rw [List.getD_eq_getElem?_getD, List.getD_eq_getElem?_getD, List.getElem?_append_left hr]

/-- Reading the freshly appended object. -/
theorem Heap.read_append_self (h : Heap) (d : DataFrame) :
    Heap.read (h ++ [d]) h.length = d := by
  unfold Heap.read
  rw [List.getD_eq_getElem?_getD, List.getElem?_concat_length]
  rfl

/-- Writing one object leaves every other object unchanged. -/
theorem Heap.read_set_ne (h : Heap) (i r : Nat) (d : DataFrame) (hir : i ≠ r) :
    Heap.read (h.set i d) r = h.read r := by
  unfold Heap.read
  rw [List.getD_eq_getElem?_getD, List.getD_eq_getElem?_getD, List.getElem?_set_ne hir]

/-- Reading back a written object. -/
theorem Heap.read_set_self (h : Heap) (i : Nat) (d : DataFrame) (hi : i < h.length) :
    Heap.read (h.set i d) i = d := by
  unfold Heap.read
  rw [List.getD_eq_getElem?_getD, List.getElem?_set_self hi]
  rfl

/-- Reading a column back after replacing its values. -/
theorem getCol_setCol (df : DataFrame) (cn : String) (vs : List Val)
    (hcm : cn ∈ df.columns) :
    (df.setCol cn vs).getCol cn = vs := by
  unfold DataFrame.getCol DataFrame.setCol
  rw [lookup_map_set df.cols cn vs hcm]
  rfl

/-- Claim C1 counterexample: on a table whose top-ranked genuine category is
literally named "Otros" (with `top_n = 2 ≥ 1`), the assignment
`top["Otros"] = others` overwrites that category's sum instead of appending a
bucket, so the slices kept by the pie renderer no longer add up to the sum of
all per-category sums: the claim as stated is false. -/
theorem c1_counterexample :
    1 ≤ 2
    ∧ ¬ ((plot_participacion_pie dfOtros "categoria" "ventas" 2).map Prod.snd).sum
        = ((aggDesc dfOtros "categoria" "ventas").map Prod.snd).sum := by
  constructor
  · decide
  · decide

/-- Claim C1 (amended): for `top_n ≥ 1`, provided every amount is non-negative
and the literal category "Otros" is not among the kept top entries, the sum of
the slices kept by the pie renderer (including the synthetic "Otros" bucket
when present) equals the sum of all per-category sums computed without
truncation; and with equal-length columns that sum is the total of the amount
column. -/
theorem c1_pie_round_trip (df : DataFrame) (c v : String) (n : Nat) (hn : 1 ≤ n)
    (hnn : ∀ p ∈ toPairs df c v, 0 ≤ p.2)
    (hkey : Val.str "Otros" ∉ ((aggDesc df c v).take n).map Prod.fst) :
    ((plot_participacion_pie df c v n).map Prod.snd).sum
      = ((aggDesc df c v).map Prod.snd).sum
    ∧ ((df.getCol c).length = (df.getCol v).length →
        ((aggDesc df c v).map Prod.snd).sum = ((df.getCol v).map Val.toInt).sum) := by
  constructor
  · have ht := take_drop_sum (aggDesc df c v) n
    by_cases hpos : 0 < otrosSum df c v n
    · have hany : ¬ ((aggDesc df c v).take n).any (fun p => decide (p.1 = Val.str "Otros"))
          = true := by
        rw [List.any_eq_true]
        rintro ⟨p, hp, hpk⟩
        have hpk' : p.1 = Val.str "Otros" := by simpa using hpk
        exact hkey (hpk' ▸ List.mem_map_of_mem Prod.fst hp)
      simp only [plot_participacion_pie, if_pos hpos, seriesSet, if_neg hany]
      rw [List.map_append, List.sum_append]
      simp only [List.map_cons, List.map_nil, List.sum_cons, List.sum_nil]
      unfold otrosSum
      omega
    · have h0 : otrosSum df c v n = 0 :=
        le_antisymm (not_lt.1 hpos) (otrosSum_nonneg df c v n hnn)
      simp only [plot_participacion_pie, if_neg hpos]
      unfold otrosSum at h0
      omega
  · intro hlen
    rw [sum_aggDesc, map_snd_toPairs df c v hlen]

/-- Witness for C1's amended theorem at the spec's example: `top_n = 1` on the
category sums {A: 130, B: 50} keeps {A: 130} and buckets 50 into "Otros". -/
theorem c1_witness :
    ((plot_participacion_pie dfA "categoria" "ventas" 1).map Prod.snd).sum
      = ((aggDesc dfA "categoria" "ventas").map Prod.snd).sum
    ∧ ((dfA.getCol "categoria").length = (dfA.getCol "ventas").length →
        ((aggDesc dfA "categoria" "ventas").map Prod.snd).sum
          = ((dfA.getCol "ventas").map Val.toInt).sum) :=
  c1_pie_round_trip dfA "categoria" "ventas" 1 (by decide) (by decide) (by decide)

/-- Claim C4 counterexample: with a genuine category named "Otros" kept among
the top entries and a strictly positive remainder (table `dfOtros`,
`top_n = 2`), the assignment overwrites the existing entry, so no slice is
added even though the remainder sum is strictly positive. -/
theorem c4_counterexample :
    ¬ ((plot_participacion_pie dfOtros "categoria" "ventas" 2).length
          = ((aggDesc dfOtros "categoria" "ventas").take 2).length + 1
        ↔ 0 < otrosSum dfOtros "categoria" "ventas" 2) := by
  decide

/-- Claim C4 (amended): provided the literal category "Otros" is not among the
kept top entries, a synthetic "Otros" slice is added (the slice list grows by
one entry) if and only if the remainder sum is strictly positive; and whenever
the columns have equal length and `top_n` is at least the distinct-category
count, the slice list is exactly the kept aggregation with nothing added. -/
theorem c4_otros_iff (df : DataFrame) (c v : String) (n : Nat)
    (hkey : Val.str "Otros" ∉ ((aggDesc df c v).take n).map Prod.fst) :
    ((plot_participacion_pie df c v n).length
        = ((aggDesc df c v).take n).length + 1 ↔ 0 < otrosSum df c v n)
    ∧ ((df.getCol c).length = (df.getCol v).length →
        nunique (df.getCol c) ≤ n →
        plot_participacion_pie df c v n = (aggDesc df c v).take n) := by
  constructor
  · by_cases hpos : 0 < otrosSum df c v n
    · have hany : ¬ ((aggDesc df c v).take n).any (fun p => decide (p.1 = Val.str "Otros"))
          = true := by
        rw [List.any_eq_true]
        rintro ⟨p, hp, hpk⟩
        have hpk' : p.1 = Val.str "Otros" := by simpa using hpk
        exact hkey (hpk' ▸ List.mem_map_of_mem Prod.fst hp)
      simp only [plot_participacion_pie, if_pos hpos, seriesSet, if_neg hany]
      simp only [List.length_append, List.length_cons, List.length_nil]
      exact iff_of_true (by trivial) hpos
    · simp only [plot_participacion_pie, if_neg hpos]
      exact iff_of_false (by omega) hpos
  · intro hlen hle
    have hdrop : (aggDesc df c v).drop n = [] := by
      rw [List.drop_eq_nil_iff, length_aggDesc, map_fst_toPairs df c v hlen]
      exact hle
    have h0 : otrosSum df c v n = 0 := by
      unfold otrosSum
      rw [hdrop]
      rfl
    simp only [plot_participacion_pie, h0]
    rw [if_neg (lt_irrefl 0)]

/-- Witness for C4's amended theorem at the spec's example (`top_n = 1`): one
slice is added there because the remainder 50 is positive, and with
`top_n = 8 ≥ 2` nothing is added. -/
theorem c4_witness :
    ((plot_participacion_pie dfA "categoria" "ventas" 1).length
        = ((aggDesc dfA "categoria" "ventas").take 1).length + 1
      ↔ 0 < otrosSum dfA "categoria" "ventas" 1)
    ∧ ((dfA.getCol "categoria").length = (dfA.getCol "ventas").length →
        nunique (dfA.getCol "categoria") ≤ 1 →
        plot_participacion_pie dfA "categoria" "ventas" 1
          = (aggDesc dfA "categoria" "ventas").take 1) :=
  c4_otros_iff dfA "categoria" "ventas" 1 (by decide)

/-- Claim C5: the bar-panel title is "Top {k} categorías por ventas" where `k`
is the minimum of `top_n` and the number of distinct category values of the
table (the number of bars actually rendered). -/
theorem c5_titulo_correcto (df : DataFrame) (c v : String) (n : Nat)
    (hlen : (df.getCol c).length = (df.getCol v).length) :
    titulo_barras df c v n
      = "Top " ++ toString (min n (nunique (df.getCol c))) ++ " categorías por ventas" := by
  unfold titulo_barras plot_ventas_por_categoria
  rw [List.length_take, length_aggDesc, map_fst_toPairs df c v hlen]
  rfl

/-- Witness for C5 at the spec's example with the default `top_n = 8`:
the title is "Top 2 categorías por ventas" since min 8 2 = 2. -/
theorem c5_witness :
    titulo_barras dfA "categoria" "ventas" 8
      = "Top " ++ toString (min 8 (nunique (dfA.getCol "categoria")))
          ++ " categorías por ventas" :=
  c5_titulo_correcto dfA "categoria" "ventas" 8 (by decide)

/-- Claim C9: for `top_n = 0` on a table with equal-length columns and a
strictly positive amount total, the pie renderer keeps zero top categories and
renders the single synthetic slice ("Otros", total), and the bar renderer
renders zero bars under the title "Top 0 categorías por ventas". -/
theorem c9_topn_cero (df : DataFrame) (c v : String)
    (hlen : (df.getCol c).length = (df.getCol v).length)
    (hpos : 0 < ((df.getCol v).map Val.toInt).sum) :
    plot_participacion_pie df c v 0
        = [(Val.str "Otros", ((df.getCol v).map Val.toInt).sum)]
    ∧ plot_ventas_por_categoria df c v 0 = []
    ∧ titulo_barras df c v 0 = "Top 0 categorías por ventas" := by
  have htot : otrosSum df c v 0 = ((df.getCol v).map Val.toInt).sum := by
    unfold otrosSum
    rw [List.drop_zero]
    rw [sum_aggDesc, map_snd_toPairs df c v hlen]
  refine ⟨?_, ?_, ?_⟩
  · have hpos' : 0 < otrosSum df c v 0 := htot ▸ hpos
    simp only [plot_participacion_pie, if_pos hpos', seriesSet, List.take_zero, List.any_nil,
      Bool.false_eq_true, if_false, List.nil_append, htot]
    rw [if_pos hpos]
  · unfold plot_ventas_por_categoria
    rw [List.take_zero]
  · unfold titulo_barras plot_ventas_por_categoria
    rw [List.take_zero]
    rfl

/-- Witness for C9 at the spec's example table, whose amount total is 180. -/
theorem c9_witness :
    plot_participacion_pie dfA "categoria" "ventas" 0
        = [(Val.str "Otros", ((dfA.getCol "ventas").map Val.toInt).sum)]
    ∧ plot_ventas_por_categoria dfA "categoria" "ventas" 0 = []
    ∧ titulo_barras dfA "categoria" "ventas" 0 = "Top 0 categorías por ventas" :=
  c9_topn_cero dfA "categoria" "ventas" (by decide) (by decide)

/-- Claim C2: when any of the three configured columns is missing from the
input table, `generar_dashboard` fails synchronously with the error whose
message names the expected column set, so no figure is produced by that
call. -/
theorem c2_missing_column (h : Heap) (r : Nat) (f c v : String)
    (hm : f ∉ (h.read r).columns ∨ c ∉ (h.read r).columns ∨ v ∉ (h.read r).columns) :
    generar_dashboard h r f c v = .error (errMsg f c v) := by
  simp only [generar_dashboard]
  rw [if_pos hm]

/-- Witness for C2: `dfOtros` has no "fecha" column, so the call errors out. -/
theorem c2_witness :
    generar_dashboard [dfOtros] 0 "fecha" "categoria" "ventas"
      = .error (errMsg "fecha" "categoria" "ventas") :=
  c2_missing_column [dfOtros] 0 "fecha" "categoria" "ventas" (Or.inl (by decide))

/-- Claim C3: on a table holding the three columns whose date column is not
date-typed but parses, the call succeeds, the caller's object is unchanged
afterwards (the conversion happened on the working copy allocated by
`df.copy()`), and the working copy's date column is date-typed. -/
theorem c3_copy_on_write (h : Heap) (r : Nat) (f c v : String) (ds : List Val)
    (hr : r < h.length)
    (hf : f ∈ (h.read r).columns) (hc : c ∈ (h.read r).columns)
    (hv : v ∈ (h.read r).columns)
    (hnd : isDateDtype ((h.read r).getCol f) = false)
    (hps : parseCol ((h.read r).getCol f) = some ds) :
    (resHeap (generar_dashboard h r f c v)).map (fun h' => Heap.read h' r)
        = some (h.read r)
    ∧ (resHeap (generar_dashboard h r f c v)).map
        (fun h' => ((Heap.read h' h.length).getCol f).all Val.isDate) = some true := by
  have hguard : ¬ (f ∉ (h.read r).columns ∨ c ∉ (h.read r).columns
      ∨ v ∉ (h.read r).columns) := by
    push_neg
    exact ⟨hf, hc, hv⟩
  have hread : Heap.read (h ++ [h.read r]) h.length = h.read r :=
    Heap.read_append_self h (h.read r)
  simp only [generar_dashboard, if_neg hguard, hread, hnd, Bool.false_eq_true, if_false,
    hps, resHeap, Option.map_some']
  constructor
  · rw [Heap.read_set_ne _ _ _ _ (Nat.ne_of_gt hr), Heap.read_append h (h.read r) r hr]
  · have hlen : h.length < (h ++ [h.read r]).length := by
      rw [List.length_append, List.length_cons, List.length_nil]
      omega
    rw [Heap.read_set_self _ _ _ hlen, getCol_setCol _ _ _ hf,
      parseCol_all_dates _ _ hps]

/-- Witness for C3 at the example table, whose string dates all parse. -/
theorem c3_witness :
    (resHeap (generar_dashboard [dfA] 0 "fecha" "categoria" "ventas")).map
        (fun h' => Heap.read h' 0) = some (Heap.read [dfA] 0)
    ∧ (resHeap (generar_dashboard [dfA] 0 "fecha" "categoria" "ventas")).map
        (fun h' => ((Heap.read h' (List.length [dfA])).getCol "fecha").all Val.isDate)
        = some true :=
  c3_copy_on_write [dfA] 0 "fecha" "categoria" "ventas"
    [.date 20240101, .date 20240101, .date 20240102]
    (by decide) (by decide) (by decide) (by decide) (by decide) (by decide)

/-- Claim C6: on the spec's example table the orchestrator's KPI statistics
are total 180, distinct days 2, distinct categories 2, daily average
mean(150, 30) = 90, and the per-category sums are A = 130 and B = 50 (the
descending aggregation rendered by the bar and pie panels). -/
theorem c6_kpis :
    resDash (generar_dashboard [dfA] 0) = some
      { serie_tiempo := [(.date 20240101, 150), (.date 20240102, 30)],
        barras := [(.str "A", 130), (.str "B", 50)],
        barras_titulo := "Top 2 categorías por ventas",
        torta := [(.str "A", 130), (.str "B", 50)],
        total_ventas := 180,
        media_diaria := mediaZ [150, 30],
        dias := 2,
        categorias := 2 }
    ∧ mediaZ [150, 30] = 90 := by
  constructor
  · rfl
  · norm_num [mediaZ]

/-- Claim C7: time aggregation is order-independent.  When two tables carry
the same (date, amount) rows up to permutation, the per-date sums agree as a
function of the date, and the ascending series drawn by the time panel are
equal. -/
theorem c7_tiempo_perm (df df' : DataFrame) (f v : String)
    (hp : (toPairs df f v).Perm (toPairs df' f v)) :
    fiberSum (toPairs df f v) = fiberSum (toPairs df' f v)
    ∧ plot_ventas_tiempo df f v = plot_ventas_tiempo df' f v := by
  have hfib : fiberSum (toPairs df f v) = fiberSum (toPairs df' f v) :=
    funext fun k => fiberSum_perm hp k
  refine ⟨hfib, ?_⟩
  unfold plot_ventas_tiempo
  have hkeys : List.insertionSort Val.le ((toPairs df f v).map Prod.fst).dedup
      = List.insertionSort Val.le ((toPairs df' f v).map Prod.fst).dedup := by
    have hperm := ((List.perm_insertionSort Val.le ((toPairs df f v).map Prod.fst).dedup).trans
        ((hp.map Prod.fst).dedup)).trans
      (List.perm_insertionSort Val.le ((toPairs df' f v).map Prod.fst).dedup).symm
    exact List.eq_of_perm_of_sorted hperm
      (List.sorted_insertionSort Val.le _) (List.sorted_insertionSort Val.le _)
  rw [hkeys, hfib]

/-- Witness for C7 on a two-row table and its row-swapped permutation. -/
theorem c7_witness :
    fiberSum (toPairs dfPermA "fecha" "ventas") = fiberSum (toPairs dfPermB "fecha" "ventas")
    ∧ plot_ventas_tiempo dfPermA "fecha" "ventas"
        = plot_ventas_tiempo dfPermB "fecha" "ventas" :=
  c7_tiempo_perm dfPermA dfPermB "fecha" "ventas" (by decide)

/-- Claim C8: `set_default_style` with no arguments is a total function (the
source performs no validation and raises on no input) that, for any prior
configuration, sets the color cycle to the six built-in corporate colors and
the fixed default font-size/line-width/grid parameters. -/
theorem c8_estilo_defecto (rc : RcParams) :
    (set_default_style none none rc).get "axes.prop_cycle"
        = some (.cycle CORPORATE_COLORS)
    ∧ CORPORATE_COLORS.length = 6
    ∧ (set_default_style none none rc).get "figure.figsize" = some (.pair 12 7)
    ∧ (set_default_style none none rc).get "axes.titlesize" = some (.num 16)
    ∧ (set_default_style none none rc).get "axes.labelsize" = some (.num 12)
    ∧ (set_default_style none none rc).get "xtick.labelsize" = some (.num 10)
    ∧ (set_default_style none none rc).get "ytick.labelsize" = some (.num 10)
    ∧ (set_default_style none none rc).get "legend.fontsize" = some (.num 10)
    ∧ (set_default_style none none rc).get "lines.linewidth" = some (.num 2)
    ∧ (set_default_style none none rc).get "grid.alpha" = some (.num (1/4)) := by
  simp only [set_default_style, Option.getD, RcParams.update, DEFAULT_STYLE,
    List.foldl_cons, List.foldl_nil, RcParams.get_set]
  simp [CORPORATE_COLORS]

/-- Claim C10: for every non-empty table with equal-length date and amount
columns, the daily-average KPI times the distinct-date count equals the
total-sales KPI, because the per-date group sums partition the amount
column. -/
theorem c10_media_por_dias (df : DataFrame) (f c v : String)
    (hlen : (df.getCol f).length = (df.getCol v).length)
    (hne : df.getCol f ≠ []) :
    (buildDashboard df f c v).media_diaria * ((buildDashboard df f c v).dias : ℚ)
      = ((buildDashboard df f c v).total_ventas : ℚ) := by
  simp only [buildDashboard, mediaZ]
  have hkeys : (toPairs df f v).map Prod.fst = df.getCol f := map_fst_toPairs df f v hlen
  have hlen2 : ((groupSum (toPairs df f v)).map Prod.snd).length
      = nunique (df.getCol f) := by
    unfold groupSum nunique
    rw [List.length_map, List.length_map, hkeys]
  have hsum : ((groupSum (toPairs df f v)).map Prod.snd).sum
      = ((df.getCol v).map Val.toInt).sum := by
    rw [sum_groupSum, map_snd_toPairs df f v hlen]
  have hpos : 0 < nunique (df.getCol f) := by
    unfold nunique
    have : (df.getCol f).dedup ≠ [] := fun he => hne ((List.dedup_eq_nil _).1 he)
    exact List.length_pos.2 this
  rw [hlen2, hsum]
  have hne' : ((nunique (df.getCol f) : ℚ)) ≠ 0 := by
    exact_mod_cast Nat.pos_iff_ne_zero.1 hpos
  field_simp

/-- Witness for C10 at the spec's example table: 90 × 2 = 180. -/
theorem c10_witness :
    (buildDashboard dfA "fecha" "categoria" "ventas").media_diaria
        * ((buildDashboard dfA "fecha" "categoria" "ventas").dias : ℚ)
      = ((buildDashboard dfA "fecha" "categoria" "ventas").total_ventas : ℚ) :=
  c10_media_por_dias dfA "fecha" "categoria" "ventas" (by decide) (by decide)

end AnalisisVentas
